import Mathlib

/-!
Shallow embedding of `transfer_playlists` from `yamusic-to-spotify.py` and
proofs about its track-matching, disambiguation, reporting, selection and
chunking behaviour.

External effects are modelled by per-track oracles: the results the Spotify
search calls would return (or the exception they would raise), the pages the
broad search can be advanced through, and the script of choices the user
types at the disambiguation prompt.  Exceptions raised inside the per-track
`try` block (metadata extraction, the exact search, the transliteration call
and the transliterated search) all land in the same `except ... continue`
handlers, so they are conflated into a single `TryRes.exn` outcome; the
broad title-only search (line 129) sits outside that `try` block and is
modelled as never failing.
-/

/-- A source track as read from the origin catalog: a title and an ordered,
possibly multi-artist list.  Only the first artist is used for queries. -/
structure SourceTrack where
  title : String
  artists : List String
  deriving DecidableEq, Repr

/-- A destination-side search hit, as consumed by the interactive prompt:
`uri`, display name, artists and album name. -/
structure Candidate where
  uri : String
  name : String
  artists : List String
  album : String
  deriving DecidableEq, Repr

/-- Result of one search attempt inside the per-track `try` block: either an
exception (caught by the `except` clauses, which log and `continue`) or the
list of returned items. -/
inductive TryRes where
  | exn : TryRes
  | ok : List Candidate → TryRes
  deriving DecidableEq, Repr

/-- The external world seen while processing one track: the track itself, the
outcome of the exact-pass search, the outcome of the transliteration-pass
search (only consulted when the exact pass returns no items), and the pages
of the broad title-only search (head = the initial `limit=5` result page,
tail = the pages `spotify_client.next` would yield). -/
structure TrackOracle where
  track : SourceTrack
  exact : TryRes
  tl : TryRes
  broadPages : List (List Candidate)
  deriving DecidableEq, Repr

/-- The primary artist, `track_short.artists[0].name`; `none` when the artist
list is empty (in the source an `IndexError` caught by the generic handler). -/
def primaryArtist (t : SourceTrack) : Option String :=
  t.artists.head?

/-- The abstract input alphabet of the disambiguation prompt.  `num k` stands
for the canonical decimal string of `k` (so `num 0` is the string `"0"`;
non-canonical digit strings such as `"00"` behave like `invalid`), `nextPage`
for `n`/`N`, `skipAllC` for `s`/`S`, and `invalid` for anything else. -/
inductive Choice where
  | num (k : Nat)
  | nextPage
  | skipAllC
  | invalid
  deriving DecidableEq, Repr

/-- Terminal outcome of the prompt loop (lines 157-187): a valid 1-based
selection `k` breaks the loop, `"0"` records the track as not found,
`s` records it and raises the skip-all flag, and `stuck` models the loop
blocking forever because the input script is exhausted. -/
inductive ResOutcome where
  | selected (k : Nat)
  | skipChoice
  | skipAllChoice
  | stuck
  deriving DecidableEq, Repr

/-- Events observable while processing one track: the three kinds of search
call and one prompt iteration (one table/notice print plus one `input()`). -/
inductive Ev where
  | exactSearch
  | translitSearch
  | broadSearch
  | prompt
  deriving DecidableEq, Repr

/-- The `while True` prompt loop of lines 157-187.  State: the current result
page `items`, the remaining continuation pages, and the unread user input.
Returns the terminal outcome, the number of prompt iterations performed, and
the unconsumed input.  The digit test is `0 < k ≤ len(items)`; `"0"` is
handled by its own branch; an out-of-range digit falls through to the
`Invalid choice` re-prompt; `n` advances to the next page when a continuation
exists and re-prompts with a notice otherwise. -/
def resolverLoop : List Candidate → List (List Candidate) → List Choice →
    ResOutcome × Nat × List Choice
  | _, _, [] => (ResOutcome.stuck, 1, [])
  | items, pages, c :: rest =>
    match c with
    | Choice.num k =>
      if 0 < k ∧ k ≤ items.length then
        (ResOutcome.selected k, 1, rest)
      else if k = 0 then
        (ResOutcome.skipChoice, 1, rest)
      else
        let r := resolverLoop items pages rest
        (r.1, r.2.1 + 1, r.2.2)
    | Choice.nextPage =>
      match pages with
      | [] =>
        let r := resolverLoop items [] rest
        (r.1, r.2.1 + 1, r.2.2)
      | pg :: pgs =>
        let r := resolverLoop pg pgs rest
        (r.1, r.2.1 + 1, r.2.2)
    | Choice.skipAllC => (ResOutcome.skipAllChoice, 1, rest)
    | Choice.invalid =>
      let r := resolverLoop items pages rest
      (r.1, r.2.1 + 1, r.2.2)

/-- Per-track outcome: `errSkip` is the `continue` of the two `except`
handlers (lines 117-122); `matched uri` appends `uri` to `track_uris`;
`unmatched title artist` appends `(title, artist)` to `not_found_songs`;
`chosenDropped k` is the branch where a valid selection `k` breaks the prompt
loop — the source then records nothing for the track; `stuck` models the
prompt loop blocking forever. -/
inductive TrackStep where
  | errSkip
  | matched (uri : String)
  | unmatched (title artist : String)
  | chosenDropped (k : Nat)
  | stuck
  deriving DecidableEq, Repr

/-- Result of processing one track: what happened, the skip-all flag after
the track, the events performed, and the unread user input. -/
structure TrackRes where
  step : TrackStep
  skipAll : Bool
  events : List Ev
  rest : List Choice
  deriving DecidableEq, Repr

/-- One iteration of the per-track loop (lines 102-190): extract the primary
artist, run the exact-pass search, on empty fall back to the transliteration
pass, and if both are empty either auto-record the track as not found (when
the skip-all flag is set) or run the broad search and enter the prompt
loop. -/
def processTrack (skipAll : Bool) (o : TrackOracle) (script : List Choice) :
    TrackRes :=
  match primaryArtist o.track with
  | none => ⟨TrackStep.errSkip, skipAll, [], script⟩
  | some artist =>
    match o.exact with
    | TryRes.exn => ⟨TrackStep.errSkip, skipAll, [Ev.exactSearch], script⟩
    | TryRes.ok (c :: _) =>
      ⟨TrackStep.matched c.uri, skipAll, [Ev.exactSearch], script⟩
    | TryRes.ok [] =>
      match o.tl with
      | TryRes.exn =>
        ⟨TrackStep.errSkip, skipAll, [Ev.exactSearch, Ev.translitSearch], script⟩
      | TryRes.ok (c :: _) =>
        ⟨TrackStep.matched c.uri, skipAll, [Ev.exactSearch, Ev.translitSearch],
          script⟩
      | TryRes.ok [] =>
        if skipAll then
          ⟨TrackStep.unmatched o.track.title artist, skipAll,
            [Ev.exactSearch, Ev.translitSearch], script⟩
        else
          let rl := resolverLoop (o.broadPages.headD []) o.broadPages.tail script
          let evs := [Ev.exactSearch, Ev.translitSearch, Ev.broadSearch] ++
            List.replicate rl.2.1 Ev.prompt
          match rl.1 with
          | ResOutcome.selected k =>
            ⟨TrackStep.chosenDropped k, skipAll, evs, rl.2.2⟩
          | ResOutcome.skipChoice =>
            ⟨TrackStep.unmatched o.track.title artist, skipAll, evs, rl.2.2⟩
          | ResOutcome.skipAllChoice =>
            ⟨TrackStep.unmatched o.track.title artist, true, evs, rl.2.2⟩
          | ResOutcome.stuck => ⟨TrackStep.stuck, skipAll, evs, rl.2.2⟩

/-- What processing one playlist's tracks accumulates: the matched URIs
(`track_uris`), the not-found `(title, artist)` pairs (`not_found_songs`),
the number of tracks dropped by a logged per-track error, the number of
tracks whose valid prompt selection was silently dropped, and the total
number of prompt iterations. -/
structure PlaylistOutcome where
  trackUris : List String
  notFound : List (String × String)
  errCount : Nat
  droppedChosen : Nat
  prompts : Nat
  deriving DecidableEq, Repr

/-- Number of prompt iterations among a track's events. -/
def promptCount (evs : List Ev) : Nat :=
  evs.count Ev.prompt

/-- The per-playlist track loop, threading the skip-all flag and the unread
user input through the tracks in order.  `none` models the run blocking
forever inside a prompt loop whose input is exhausted. -/
def goTracks (b : Bool) : List TrackOracle → List Choice →
    Option (PlaylistOutcome × List Choice)
  | [], s => some (⟨[], [], 0, 0, 0⟩, s)
  | o :: os, s =>
    let r := processTrack b o s
    match r.step with
    | TrackStep.stuck => none
    | TrackStep.matched uri =>
      (goTracks r.skipAll os r.rest).map fun p =>
        (⟨uri :: p.1.trackUris, p.1.notFound, p.1.errCount, p.1.droppedChosen,
          promptCount r.events + p.1.prompts⟩, p.2)
    | TrackStep.unmatched t a =>
      (goTracks r.skipAll os r.rest).map fun p =>
        (⟨p.1.trackUris, (t, a) :: p.1.notFound, p.1.errCount,
          p.1.droppedChosen, promptCount r.events + p.1.prompts⟩, p.2)
    | TrackStep.errSkip =>
      (goTracks r.skipAll os r.rest).map fun p =>
        (⟨p.1.trackUris, p.1.notFound, p.1.errCount + 1, p.1.droppedChosen,
          promptCount r.events + p.1.prompts⟩, p.2)
    | TrackStep.chosenDropped _ =>
      (goTracks r.skipAll os r.rest).map fun p =>
        (⟨p.1.trackUris, p.1.notFound, p.1.errCount,
          p.1.droppedChosen + 1, promptCount r.events + p.1.prompts⟩, p.2)

/-- Processing one playlist starts with the skip-all flag freshly `false`
(`skip_all_not_found = False`, line 100, inside the playlist loop). -/
def processPlaylist (os : List TrackOracle) (script : List Choice) :
    Option (PlaylistOutcome × List Choice) :=
  goTracks false os script

/-- The lines written into `not_found_songs.log`: a fixed header followed by
one `"<title> by <artist>"` line per entry (lines 194-197). -/
def reportLines (nf : List (String × String)) : List String :=
  "Songs not found on Spotify:" ::
    nf.map fun p => p.1 ++ " by " ++ p.2

/-- The guarded write of lines 193-197: when `not_found_songs` is non-empty
the file is opened in mode `w`, replacing its previous contents with this
playlist's report; when it is empty the file is left untouched. -/
def writeReport (file : List String) (nf : List (String × String)) :
    List String :=
  if nf.isEmpty then file else reportLines nf

/-- One playlist as seen by the playlist loop: its title and the per-track
oracles for its tracks (playlist-level fetch/create failures, which `continue`
before any track is processed, are modelled by omitting the playlist). -/
structure PlaylistEnv where
  name : String
  oracles : List TrackOracle
  deriving DecidableEq, Repr

/-- What a whole run of the playlist loop produces: the per-playlist
outcomes in order, the final contents of `not_found_songs.log`, and how many
times that file was written. -/
structure RunRes where
  outcomes : List (String × PlaylistOutcome)
  file : List String
  writes : Nat
  deriving DecidableEq, Repr

/-- The playlist loop of lines 68-206: each playlist is processed with the
skip-all flag reset to `false`, then `not_found_songs.log` is rewritten if
and only if this playlist's not-found list is non-empty.  The user-input
script is shared (it is the one stdin) and threads from playlist to
playlist. -/
def runPlaylists : List PlaylistEnv → List Choice → List String →
    Option RunRes
  | [], _, file => some ⟨[], file, 0⟩
  | p :: ps, s, file =>
    match goTracks false p.oracles s with
    | none => none
    | some (out, s') =>
      (runPlaylists ps s' (writeReport file out.notFound)).map fun r =>
        ⟨(p.name, out) :: r.outcomes, r.file,
          (if out.notFound.isEmpty then 0 else 1) + r.writes⟩

/-- Python list indexing `xs[i]` with an `Int` index: non-negative indices
read from the front, negative indices in `[-len, -1]` read from the back,
anything else raises `IndexError` (modelled as `none`). -/
def pyGet {α : Type} (xs : List α) (i : Int) : Option α :=
  if 0 ≤ i then xs.get? i.toNat
  else if 0 ≤ i + (xs.length : Int) then xs.get? (i + (xs.length : Int)).toNat
  else none

/-- The selection of line 64,
`[yandex_playlists[i - 1] for i in selected_indices]`: each entered number
`i` fetches element `i - 1` with Python indexing; an `IndexError`
(uncaught in the source, aborting the run) is modelled as `none`. -/
def selectPlaylists {α : Type} (xs : List α) : List Int → Option (List α)
  | [] => some []
  | i :: is =>
    match pyGet xs (i - 1), selectPlaylists xs is with
    | some x, some rest => some (x :: rest)
    | _, _ => none

/-- The slicing comprehension
`[track_uris[i:i+k] for i in range(0, len(track_uris), k)]` with chunk size
`k + 1` (the successor form rules out an empty chunk size; the source uses
the fixed size 100).  The first argument is recursion fuel: every step
consumes at least one element, so any fuel of at least the list's length
computes the full chunking. -/
def chunkedFuel {α : Type} (k : Nat) : Nat → List α → List (List α)
  | _, [] => []
  | 0, _ :: _ => []
  | fuel + 1, x :: xs =>
    ((x :: xs).take (k + 1)) :: chunkedFuel k fuel ((x :: xs).drop (k + 1))

/-- Line 200: the resolved URIs chunked into lists of at most
`max_tracks_per_request = 100`. -/
def chunkedTrackUris (uris : List String) : List (List String) :=
  chunkedFuel 99 uris.length uris

/-- Lines 202-204: one `playlist_add_items` call is issued per chunk, in
chunk order; the payload of each call is the chunk itself. -/
def addItemCalls (uris : List String) : List (List String) :=
  chunkedTrackUris uris

/-- A sample search hit used by the concrete scenarios below. -/
def sampleCand : Candidate :=
  ⟨"spotify:track:1", "Song One", ["Artist"], "Album"⟩

/-- A second sample search hit. -/
def sampleCand2 : Candidate :=
  ⟨"spotify:track:2", "Song Two", ["Artist"], "Album"⟩

/-- A track whose exact and transliteration passes return nothing and whose
broad pass returns one candidate. -/
def bugOracle : TrackOracle :=
  ⟨⟨"Track", ["Artist"]⟩, TryRes.ok [], TryRes.ok [], [[sampleCand]]⟩

/-- A track whose exact and transliteration passes return nothing and whose
broad pass returns two candidates. -/
def c2Oracle : TrackOracle :=
  ⟨⟨"T2", ["A2"]⟩, TryRes.ok [], TryRes.ok [], [[sampleCand, sampleCand2]]⟩

/-- A track whose searches all return nothing: the broad result set is
empty. -/
def c6Oracle : TrackOracle :=
  ⟨⟨"T6", ["A6"]⟩, TryRes.ok [], TryRes.ok [], []⟩

/-- A track whose exact-pass search raises `SpotifyException`. -/
def errOracle : TrackOracle :=
  ⟨⟨"Terr", ["Aerr"]⟩, TryRes.exn, TryRes.ok [], []⟩

/-- A track matched directly by the exact pass. -/
def okOracle : TrackOracle :=
  ⟨⟨"Tok", ["Aok"]⟩, TryRes.ok [sampleCand], TryRes.ok [], []⟩

/-- A playlist with a single track that no pass can match. -/
def plEnv1 : PlaylistEnv :=
  ⟨"P1", [⟨⟨"t1", ["a1"]⟩, TryRes.ok [], TryRes.ok [], []⟩]⟩

/-- A second playlist with a single track that no pass can match. -/
def plEnv2 : PlaylistEnv :=
  ⟨"P2", [⟨⟨"t2", ["a2"]⟩, TryRes.ok [], TryRes.ok [], []⟩]⟩

/-- A playlist whose single track matches on the exact pass, so its
not-found list ends up empty. -/
def plEnvOk : PlaylistEnv :=
  ⟨"POk", [okOracle]⟩

theorem resolverLoop_prompts_pos (items : List Candidate)
    (pages : List (List Candidate)) (s : List Choice) :
    1 ≤ (resolverLoop items pages s).2.1 := by
  cases s with
  | nil => simp [resolverLoop]
  | cons c rest =>
    cases c with
    | num k =>
      simp only [resolverLoop]
      split
      · simp
      · split <;> simp
    | nextPage => cases pages <;> simp [resolverLoop]
    | skipAllC => simp [resolverLoop]
    | invalid => simp [resolverLoop]

theorem processTrack_exact_matched (b : Bool) (o : TrackOracle)
    (s : List Choice) (a : String) (c : Candidate) (cs : List Candidate)
    (ha : primaryArtist o.track = some a) (he : o.exact = TryRes.ok (c :: cs)) :
    processTrack b o s = ⟨TrackStep.matched c.uri, b, [Ev.exactSearch], s⟩ := by
  unfold processTrack
  rw [ha, he]

theorem processTrack_exact_exn (b : Bool) (o : TrackOracle) (s : List Choice)
    (a : String) (ha : primaryArtist o.track = some a)
    (he : o.exact = TryRes.exn) :
    processTrack b o s = ⟨TrackStep.errSkip, b, [Ev.exactSearch], s⟩ := by
  unfold processTrack
  rw [ha, he]

theorem processTrack_skipAll_auto (o : TrackOracle) (s : List Choice)
    (a : String) (ha : primaryArtist o.track = some a)
    (he : o.exact = TryRes.ok []) (ht : o.tl = TryRes.ok []) :
    processTrack true o s = ⟨TrackStep.unmatched o.track.title a, true,
      [Ev.exactSearch, Ev.translitSearch], s⟩ := by
  unfold processTrack
  rw [ha, he, ht]
  rfl

theorem processTrack_inconclusive_events (o : TrackOracle) (s : List Choice)
    (a : String) (ha : primaryArtist o.track = some a)
    (he : o.exact = TryRes.ok []) (ht : o.tl = TryRes.ok []) :
    (processTrack false o s).events =
      [Ev.exactSearch, Ev.translitSearch, Ev.broadSearch] ++
        List.replicate
          (resolverLoop (o.broadPages.headD []) o.broadPages.tail s).2.1
          Ev.prompt := by
  rcases h : resolverLoop (o.broadPages.headD []) o.broadPages.tail s with
    ⟨out, n, rest⟩
  unfold processTrack
  rw [ha, he, ht]
  simp only [h]
  cases out <;> rfl

/-- C9: for every source track, when the exact pass returns a non-empty
result the transliteration and broad passes are never executed and the
matched URI is the first item of the exact-pass result. -/
theorem exact_pass_short_circuit (b : Bool) (o : TrackOracle) (s : List Choice)
    (a : String) (c : Candidate) (cs : List Candidate)
    (ha : primaryArtist o.track = some a)
    (he : o.exact = TryRes.ok (c :: cs)) :
    (processTrack b o s).step = TrackStep.matched c.uri ∧
    Ev.translitSearch ∉ (processTrack b o s).events ∧
    Ev.broadSearch ∉ (processTrack b o s).events ∧
    (processTrack b o s).events = [Ev.exactSearch] := by
  rw [processTrack_exact_matched b o s a c cs ha he]
  refine ⟨rfl, ?_, ?_, rfl⟩ <;> simp

theorem exact_pass_short_circuit_witness :
    (processTrack false okOracle []).step =
        TrackStep.matched "spotify:track:1" ∧
      Ev.translitSearch ∉ (processTrack false okOracle []).events ∧
      Ev.broadSearch ∉ (processTrack false okOracle []).events ∧
      (processTrack false okOracle []).events = [Ev.exactSearch] :=
  exact_pass_short_circuit false okOracle [] "Aok" sampleCand [] rfl rfl

/-- C1: refuted at a concrete input.  One track whose exact and
transliteration passes are empty and whose broad pass returns one candidate;
the user answers `1` (a valid selection, so no per-track processing error
occurs), yet the resulting outcome has `trackUris` and `notFound` both empty:
`len(trackUris) + len(unmatched)` is `0`, not `1`, and the track is accounted
for nowhere — it is silently dropped by the prompt loop's valid-selection
`break`, which never appends the chosen URI. -/
theorem track_conservation_violated :
    ∃ r, goTracks false [bugOracle] [Choice.num 1] = some (r, []) ∧
      r.trackUris.length + r.notFound.length + r.errCount ≠
        [bugOracle].length ∧
      r.droppedChosen = 1 :=
  ⟨⟨[], [], 0, 1, 1⟩, by decide, by decide, rfl⟩

/-- C2: refuted at a concrete input.  A track whose exact and transliteration
passes fail and whose broad pass returns two candidates; the user enters `2`
(valid, since the displayed list has two entries).  The prompt loop breaks
with selection 2 but the source never appends `candidate[1].uri`: the
playlist's track-URI list stays empty instead of receiving
`"spotify:track:2"`. -/
theorem selected_candidate_dropped :
    (c2Oracle.broadPages.headD []).length = 2 ∧
    (processTrack false c2Oracle [Choice.num 2]).step =
      TrackStep.chosenDropped 2 ∧
    ∃ r, goTracks false [c2Oracle] [Choice.num 2] = some (r, []) ∧
      r.trackUris = [] :=
  ⟨rfl, by decide, ⟨[], [], 0, 1, 1⟩, by decide, rfl⟩

/-- C6, as stated: refuted at a concrete input.  A track whose broad pass
returns zero candidates still enters the disambiguation prompt loop: the
source prints a no-songs notice and prompts anyway (here the user answers
`0`, recording the track as not found). -/
theorem resolver_prompts_with_zero_candidates :
    c6Oracle.broadPages.headD [] = [] ∧
    Ev.prompt ∈ (processTrack false c6Oracle [Choice.num 0]).events ∧
    (processTrack false c6Oracle [Choice.num 0]).step =
      TrackStep.unmatched "T6" "A6" := by
  decide

/-- C6 amended: the prompt loop is entered whenever the exact and
transliteration passes both return empty and the skip-all flag is not set,
regardless of whether the broad pass returned any candidates; with an empty
candidate set it shows a no-songs notice and still prompts. -/
theorem resolver_entered_whenever_inconclusive (o : TrackOracle)
    (s : List Choice) (a : String) (ha : primaryArtist o.track = some a)
    (he : o.exact = TryRes.ok []) (ht : o.tl = TryRes.ok []) :
    Ev.prompt ∈ (processTrack false o s).events := by
  rw [processTrack_inconclusive_events o s a ha he ht]
  have hp := resolverLoop_prompts_pos (o.broadPages.headD [])
    o.broadPages.tail s
  exact List.mem_append_right _
    (List.mem_replicate.mpr ⟨by omega, rfl⟩)

theorem resolver_entered_whenever_inconclusive_witness :
    Ev.prompt ∈ (processTrack false c6Oracle [Choice.num 0]).events :=
  resolver_entered_whenever_inconclusive c6Oracle [Choice.num 0] "A6"
    rfl rfl rfl

/-- C5, as stated: refuted at a concrete input.  A run over two tracks where
the first track's exact-pass search raises: processing continues with the
next track (which matches), the failure is counted as a logged error, but
the failed track is NOT recorded in the unmatched list — `notFound` is
empty, where the claim requires it to contain the failed track. -/
theorem search_error_not_recorded :
    goTracks false [errOracle, okOracle] [] =
      some (⟨["spotify:track:1"], [], 1, 0, 0⟩, []) := by
  decide

/-- C5 amended: a search failure aborts matching for that track only — the
loop continues with the remaining tracks unchanged — and the failure is
logged (counted in `errCount`), but the failed track is not recorded in the
unmatched report. -/
theorem search_error_skips_track_only (b : Bool) (o : TrackOracle)
    (os : List TrackOracle) (s : List Choice) (a : String)
    (ha : primaryArtist o.track = some a) (he : o.exact = TryRes.exn) :
    goTracks b (o :: os) s = (goTracks b os s).map fun p =>
      (⟨p.1.trackUris, p.1.notFound, p.1.errCount + 1, p.1.droppedChosen,
        p.1.prompts⟩, p.2) := by
  have hp := processTrack_exact_exn b o s a ha he
  simp only [goTracks, hp]
  cases goTracks b os s <;> simp [promptCount]

theorem search_error_skips_track_only_witness :
    goTracks false [errOracle, okOracle] [] =
      (goTracks false [okOracle] []).map fun p =>
        (⟨p.1.trackUris, p.1.notFound, p.1.errCount + 1, p.1.droppedChosen,
          p.1.prompts⟩, p.2) :=
  search_error_skips_track_only false errOracle [okOracle] [] "Aerr" rfl rfl

theorem processTrack_skipAllC (o : TrackOracle) (s : List Choice) (a : String)
    (ha : primaryArtist o.track = some a) (he : o.exact = TryRes.ok [])
    (ht : o.tl = TryRes.ok []) :
    processTrack false o (Choice.skipAllC :: s) =
      ⟨TrackStep.unmatched o.track.title a, true,
        [Ev.exactSearch, Ev.translitSearch, Ev.broadSearch, Ev.prompt], s⟩ := by
  unfold processTrack
  rw [ha, he, ht]
  rfl

/-- C7: entering `S` on an inconclusive track records it as unmatched and
raises the skip-all flag; with the flag raised every later inconclusive
track is auto-recorded as unmatched without a broad search, a prompt, or
consuming input; and the flag is local to one playlist: each playlist of a
run is processed starting from a fresh `false` flag. -/
theorem skip_all_flag_behaviour :
    (∀ (o : TrackOracle) (a : String) (s : List Choice),
      primaryArtist o.track = some a → o.exact = TryRes.ok [] →
      o.tl = TryRes.ok [] →
      processTrack false o (Choice.skipAllC :: s) =
        ⟨TrackStep.unmatched o.track.title a, true,
          [Ev.exactSearch, Ev.translitSearch, Ev.broadSearch, Ev.prompt], s⟩) ∧
    (∀ (o : TrackOracle) (a : String) (s : List Choice),
      primaryArtist o.track = some a → o.exact = TryRes.ok [] →
      o.tl = TryRes.ok [] →
      processTrack true o s =
        ⟨TrackStep.unmatched o.track.title a, true,
          [Ev.exactSearch, Ev.translitSearch], s⟩) ∧
    (∀ (q p : PlaylistEnv) (s : List Choice) (file : List String) (r : RunRes),
      runPlaylists [q, p] s file = some r →
      ∃ s1 s2 out, goTracks false p.oracles s1 = some (out, s2) ∧
        r.outcomes.get? 1 = some (p.name, out)) := by
  refine ⟨fun o a s ha he ht => processTrack_skipAllC o s a ha he ht,
    fun o a s ha he ht => processTrack_skipAll_auto o s a ha he ht,
    fun q p s file r h => ?_⟩
  simp only [runPlaylists] at h
  cases hq : goTracks false q.oracles s with
  | none => simp only [hq] at h; exact absurd h (by simp)
  | some v =>
    obtain ⟨outq, s1⟩ := v
    simp only [hq] at h
    cases hp : goTracks false p.oracles s1 with
    | none => simp only [hp] at h; exact absurd h (by simp)
    | some w =>
      obtain ⟨outp, s2⟩ := w
      simp only [hp, Option.map_some'] at h
      obtain rfl := Option.some.inj h
      exact ⟨s1, s2, outp, hp, rfl⟩

theorem skip_all_flag_behaviour_witness :
    processTrack false c6Oracle [Choice.skipAllC] =
      ⟨TrackStep.unmatched "T6" "A6", true,
        [Ev.exactSearch, Ev.translitSearch, Ev.broadSearch, Ev.prompt], []⟩ ∧
    processTrack true c6Oracle [] =
      ⟨TrackStep.unmatched "T6" "A6", true,
        [Ev.exactSearch, Ev.translitSearch], []⟩ ∧
    ∃ s1 s2 out, goTracks false plEnv2.oracles s1 = some (out, s2) ∧
      (⟨[("P1", ⟨[], [("t1", "a1")], 0, 0, 1⟩),
         ("P2", ⟨[], [("t2", "a2")], 0, 0, 1⟩)],
        ["Songs not found on Spotify:", "t2 by a2"], 2⟩ : RunRes).outcomes.get?
          1 = some (plEnv2.name, out) :=
  ⟨skip_all_flag_behaviour.1 c6Oracle "A6" [] rfl rfl rfl,
   skip_all_flag_behaviour.2.1 c6Oracle "A6" [] rfl rfl rfl,
   skip_all_flag_behaviour.2.2 plEnv1 plEnv2 [Choice.num 0, Choice.num 0] []
     ⟨[("P1", ⟨[], [("t1", "a1")], 0, 0, 1⟩),
       ("P2", ⟨[], [("t2", "a2")], 0, 0, 1⟩)],
      ["Songs not found on Spotify:", "t2 by a2"], 2⟩ (by decide)⟩

/-- C10: when a playlist's processing produces an empty unmatched list, no
report is written for it: `not_found_songs.log` keeps whatever contents it
had, and the rest of the run proceeds from that unchanged file with no write
counted. -/
theorem empty_unmatched_leaves_report_file (p : PlaylistEnv)
    (ps : List PlaylistEnv) (s s' : List Choice) (file : List String)
    (out : PlaylistOutcome) (h : goTracks false p.oracles s = some (out, s'))
    (hnf : out.notFound = []) :
    writeReport file out.notFound = file ∧
    runPlaylists (p :: ps) s file = (runPlaylists ps s' file).map fun r =>
      ⟨(p.name, out) :: r.outcomes, r.file, r.writes⟩ := by
  constructor
  · rw [hnf]; rfl
  · simp only [runPlaylists, h, hnf, writeReport, List.isEmpty_nil, if_true]
    cases runPlaylists ps s' file <;> simp

theorem empty_unmatched_leaves_report_file_witness :
    writeReport ["old line"] ([] : List (String × String)) = ["old line"] ∧
    runPlaylists [plEnvOk] [] ["old line"] =
      (runPlaylists [] [] ["old line"]).map fun r =>
        ⟨("POk", ⟨["spotify:track:1"], [], 0, 0, 0⟩) :: r.outcomes, r.file,
          r.writes⟩ :=
  empty_unmatched_leaves_report_file plEnvOk [] [] [] ["old line"]
    ⟨["spotify:track:1"], [], 0, 0, 0⟩ (by decide) rfl

/-- C3, as stated: refuted at a concrete input.  A run over two playlists,
each leaving one unmatched track: the report is written twice (once per
playlist, inside the playlist loop), and the final file contains only the
second playlist's entry — the first playlist's `"t1 by a1"` line is absent,
so the report is not the end-of-run accumulation of all playlists. -/
theorem report_not_aggregated_across_playlists :
    ∃ r, runPlaylists [plEnv1, plEnv2] [Choice.num 0, Choice.num 0] [] =
        some r ∧
      r.writes = 2 ∧ ("t1 by a1") ∉ r.file ∧
      r.file = reportLines [("t2", "a2")] :=
  ⟨⟨[("P1", ⟨[], [("t1", "a1")], 0, 0, 1⟩),
     ("P2", ⟨[], [("t2", "a2")], 0, 0, 1⟩)],
    ["Songs not found on Spotify:", "t2 by a2"], 2⟩,
   by decide, rfl, by decide, by decide⟩

/-- C3 amended: the report is written once per playlist whose unmatched list
is non-empty, each write replacing the file with only that playlist's
entries; a playlist with an empty unmatched list leaves the file untouched,
so the file after the run is the fold of the guarded overwrite over the
playlists' unmatched lists in order (i.e. it reflects only the last playlist
with a non-empty unmatched list). -/
theorem report_written_per_playlist (ps : List PlaylistEnv) (s : List Choice)
    (file : List String) (r : RunRes) (h : runPlaylists ps s file = some r) :
    r.writes = (r.outcomes.filter fun o => !o.2.notFound.isEmpty).length ∧
    r.file = (r.outcomes.map fun o => o.2.notFound).foldl writeReport file := by
  induction ps generalizing s file r with
  | nil =>
    simp only [runPlaylists] at h
    obtain rfl := Option.some.inj h
    exact ⟨rfl, rfl⟩
  | cons p ps ih =>
    simp only [runPlaylists] at h
    cases hq : goTracks false p.oracles s with
    | none => simp only [hq] at h; exact absurd h (by simp)
    | some v =>
      obtain ⟨out, s'⟩ := v
      simp only [hq] at h
      cases hr : runPlaylists ps s' (writeReport file out.notFound) with
      | none => simp only [hr] at h; exact absurd h (by simp)
      | some r' =>
        simp only [hr, Option.map_some'] at h
        obtain rfl := Option.some.inj h
        obtain ⟨ih1, ih2⟩ := ih s' (writeReport file out.notFound) r' hr
        constructor
        · simp only [List.filter_cons]
          cases hnf : out.notFound.isEmpty <;> (simp [ih1, hnf]; try omega)
        · simpa using ih2

theorem report_written_per_playlist_witness :
    RunRes.writes ⟨[("P1", ⟨[], [("t1", "a1")], 0, 0, 1⟩),
        ("P2", ⟨[], [("t2", "a2")], 0, 0, 1⟩)],
      ["Songs not found on Spotify:", "t2 by a2"], 2⟩ =
      (List.filter (fun o => !o.2.notFound.isEmpty)
        [("P1", (⟨[], [("t1", "a1")], 0, 0, 1⟩ : PlaylistOutcome)),
         ("P2", ⟨[], [("t2", "a2")], 0, 0, 1⟩)]).length ∧
    RunRes.file ⟨[("P1", ⟨[], [("t1", "a1")], 0, 0, 1⟩),
        ("P2", ⟨[], [("t2", "a2")], 0, 0, 1⟩)],
      ["Songs not found on Spotify:", "t2 by a2"], 2⟩ =
      (List.map (fun o => o.2.notFound)
        [("P1", (⟨[], [("t1", "a1")], 0, 0, 1⟩ : PlaylistOutcome)),
         ("P2", ⟨[], [("t2", "a2")], 0, 0, 1⟩)]).foldl writeReport [] :=
  report_written_per_playlist [plEnv1, plEnv2]
    [Choice.num 0, Choice.num 0] []
    ⟨[("P1", ⟨[], [("t1", "a1")], 0, 0, 1⟩),
      ("P2", ⟨[], [("t2", "a2")], 0, 0, 1⟩)],
     ["Songs not found on Spotify:", "t2 by a2"], 2⟩ (by decide)

/-- C4, as stated: refuted at a concrete input.  With two listed playlists,
entering index `0` is not rejected: Python's negative indexing makes
`playlists[0 - 1]` select the LAST playlist, so the selection succeeds and
returns something instead of failing. -/
theorem index_zero_selects_last_playlist :
    selectPlaylists ["A", "B"] [0] = some ["B"] := by
  decide

theorem get?_eq_some_getD {α : Type} (xs : List α) (n : Nat) (d : α)
    (h : n < xs.length) : xs.get? n = some (xs.getD n d) := by
  induction xs generalizing n with
  | nil => simp at h
  | cons x xs ih =>
    cases n with
    | zero => rfl
    | succ m =>
      have hm : m < xs.length := by simpa using h
      simpa [List.getD] using ih m hm

theorem selectPlaylists_in_range {α : Type} (xs : List α) (d : α) :
    ∀ idxs : List Int, (∀ i ∈ idxs, 1 ≤ i ∧ i ≤ (xs.length : Int)) →
      selectPlaylists xs idxs =
        some (idxs.map fun i => xs.getD (i - 1).toNat d)
  | [], _ => rfl
  | i :: is, hr => by
    obtain ⟨h1, h2⟩ := hr i (List.mem_cons_self i is)
    have hlt : (i - 1).toNat < xs.length := by omega
    have hget : pyGet xs (i - 1) = some (xs.getD (i - 1).toNat d) := by
      unfold pyGet
      rw [if_pos (by omega : (0 : Int) ≤ i - 1)]
      exact get?_eq_some_getD xs _ d hlt
    have hrec := selectPlaylists_in_range xs d is
      (fun j hj => hr j (List.mem_cons_of_mem i hj))
    simp only [selectPlaylists, hget, hrec, List.map_cons]

/-- C4 amended: entered 1-based indices inside `1..len` return the
corresponding playlists in selection order; an index past the end raises an
uncaught `IndexError` (modelled as `none`), aborting the run rather than a
handled invalid-selection error; and index `0` is not rejected at all —
Python's negative indexing makes it select the last playlist. -/
theorem selection_follows_python_indexing (xs : List String)
    (idxs : List Int) (hr : ∀ i ∈ idxs, 1 ≤ i ∧ i ≤ (xs.length : Int))
    (hne : xs ≠ []) :
    selectPlaylists xs idxs =
      some (idxs.map fun i => xs.getD (i - 1).toNat "") ∧
    selectPlaylists xs [0] = some [xs.getD (xs.length - 1) ""] ∧
    selectPlaylists xs [(xs.length : Int) + 1] = none := by
  have hlen : 1 ≤ xs.length := List.length_pos.mpr hne
  refine ⟨selectPlaylists_in_range xs "" idxs hr, ?_, ?_⟩
  · have hget : pyGet xs ((0 : Int) - 1) =
        some (xs.getD (xs.length - 1) "") := by
      unfold pyGet
      rw [if_neg (by omega), if_pos (by omega)]
      have hn : ((0 : Int) - 1 + (xs.length : Int)).toNat = xs.length - 1 := by
        omega
      rw [hn]
      exact get?_eq_some_getD xs _ "" (by omega)
    simp only [selectPlaylists, hget]
  · have hget : pyGet xs ((xs.length : Int) + 1 - 1) = none := by
      unfold pyGet
      rw [if_pos (by omega)]
      have hn : ((xs.length : Int) + 1 - 1).toNat = xs.length := by omega
      rw [hn]
      exact List.get?_eq_none.mpr (Nat.le_refl _)
    simp only [selectPlaylists, hget]

theorem selection_follows_python_indexing_witness :
    selectPlaylists ["A", "B"] [2, 1] =
      some ([(2 : Int), 1].map fun i => ["A", "B"].getD (i - 1).toNat "") ∧
    selectPlaylists ["A", "B"] [0] =
      some [["A", "B"].getD (["A", "B"].length - 1) ""] ∧
    selectPlaylists ["A", "B"] [(["A", "B"].length : Int) + 1] = none :=
  selection_follows_python_indexing ["A", "B"] [2, 1] (by decide)
    (by decide)

theorem chunkedFuel_join {α : Type} (k : Nat) : ∀ (fuel : Nat) (xs : List α),
    xs.length ≤ fuel → (chunkedFuel k fuel xs).flatten = xs := by
  intro fuel
  induction fuel with
  | zero =>
    intro xs hx
    cases xs with
    | nil => rfl
    | cons x xs => simp at hx
  | succ fuel ih =>
    intro xs hx
    cases xs with
    | nil => rfl
    | cons x xs =>
      have hx' : xs.length + 1 ≤ fuel + 1 := by simpa using hx
      have hd : ((x :: xs).drop (k + 1)).length ≤ fuel := by
        simp only [List.length_drop, List.length_cons]
        omega
      simp only [chunkedFuel, List.flatten_cons, ih _ hd]
      exact List.take_append_drop (k + 1) (x :: xs)

theorem chunkedFuel_sizes {α : Type} (k : Nat) : ∀ (fuel : Nat)
    (xs : List α), ∀ c ∈ chunkedFuel k fuel xs, c.length ≤ k + 1 := by
  intro fuel
  induction fuel with
  | zero =>
    intro xs c hc
    cases xs <;> simp [chunkedFuel] at hc
  | succ fuel ih =>
    intro xs c hc
    cases xs with
    | nil => simp [chunkedFuel] at hc
    | cons x xs =>
      simp only [chunkedFuel, List.mem_cons] at hc
      rcases hc with rfl | hc
      · simp
      · exact ih _ c hc

theorem chunkedFuel_count {α : Type} (k : Nat) : ∀ (fuel : Nat)
    (xs : List α), xs.length ≤ fuel →
    (chunkedFuel k fuel xs).length = (xs.length + k) / (k + 1) := by
  intro fuel
  induction fuel with
  | zero =>
    intro xs hx
    cases xs with
    | nil => simp [chunkedFuel, Nat.div_eq_of_lt (Nat.lt_succ_self k)]
    | cons x xs => simp at hx
  | succ fuel ih =>
    intro xs hx
    cases xs with
    | nil => simp [chunkedFuel, Nat.div_eq_of_lt (Nat.lt_succ_self k)]
    | cons x xs =>
      have hx' : xs.length + 1 ≤ fuel + 1 := by simpa using hx
      have hd : ((x :: xs).drop (k + 1)).length ≤ fuel := by
        simp only [List.length_drop, List.length_cons]
        omega
      simp only [chunkedFuel, List.length_cons, ih _ hd, List.length_drop]
      rcases Nat.le_total (k + 1) (xs.length + 1) with hle | hle
      · have hE : xs.length + 1 + k =
            (xs.length + 1 - (k + 1) + k) + (k + 1) := by omega
        rw [hE, Nat.add_div_right _ (Nat.succ_pos k)]
      · have h0 : xs.length + 1 - (k + 1) = 0 := by omega
        rw [h0, Nat.zero_add, Nat.div_eq_of_lt (Nat.lt_succ_self k)]
        symm
        exact Nat.div_eq_of_lt_le (by omega) (by omega)

/-- C8: for `N` resolved URIs and chunk size 100, exactly `ceil(N/100)`
add-items calls are issued (as `(N + 99) / 100` in natural division), each
call carries at most 100 URIs, and concatenating the call payloads in
submission order reproduces the original URI sequence. -/
theorem chunking_spec (uris : List String) :
    (addItemCalls uris).length = (uris.length + 99) / 100 ∧
    (∀ c ∈ addItemCalls uris, c.length ≤ 100) ∧
    (addItemCalls uris).flatten = uris :=
  ⟨chunkedFuel_count 99 uris.length uris (Nat.le_refl _),
    fun c hc => chunkedFuel_sizes 99 uris.length uris c hc,
    chunkedFuel_join 99 uris.length uris (Nat.le_refl _)⟩

set_option maxRecDepth 20000 in
theorem chunking_spec_witness :
    (addItemCalls (List.replicate 250 "u")).length = 3 ∧
    List.replicate 100 "u" ∈ addItemCalls (List.replicate 250 "u") ∧
    (List.replicate 100 "u").length ≤ 100 ∧
    (addItemCalls (List.replicate 250 "u")).flatten =
      List.replicate 250 "u" :=
  ⟨by rw [(chunking_spec (List.replicate 250 "u")).1]; simp, by decide,
    (chunking_spec (List.replicate 250 "u")).2.1 _ (by decide),
    (chunking_spec (List.replicate 250 "u")).2.2⟩
